import Mathlib

/-!
Verification development for the audio-stream repository.

The definitions below are shallow embeddings of the program's code:

* `audio_config.hpp` constants (`frames_per_buffer`, `num_channels`, ...);
* the wire codec implemented by `AudioRecorder::recordCallback`
  (text-encode each 16-bit sample in decimal followed by a newline) and
  `AudioPlayer::handle_receive_cb` (stringstream `>>` extraction of one
  integer token per sample slot into a zero-initialized buffer);
* the endpoint validators `is_valid_port`, `is_valid_ip`, `is_valid_mac`
  of `sender.hpp` / `receiver.hpp` / `main.cpp`;
* the constructor, `stop()` and receive-loop behaviour of `UDPSender`,
  `UDPReceiver` and `BluetoothReceiver` as explicit state machines and
  action traces;
* the command-line driver `main.cpp` as a function from parsed options,
  environment answers and stdin lines to an outcome.

Strings and byte sequences are modelled as `List Char` (all wire data in
this program is ASCII text), machine integers as `Int` with explicit
range conditions, and C++ exceptions as explicit error values.
-/

/-! ## Constants from audio_config.hpp and the PortAudio interface -/

/-- `frames_per_buffer` from audio_config.hpp. -/
def frames_per_buffer : Nat := 16

/-- `num_channels` from audio_config.hpp. -/
def num_channels : Nat := 2

/-- `sample_silence` from audio_config.hpp. -/
def sample_silence : Int := 0

/-- PortAudio callback result `paContinue` (the PortAudio header defines it as 0). -/
def paContinue : Int := 0

/-- PortAudio callback result `paComplete` (the PortAudio header defines it as 1). -/
def paComplete : Int := 1

/-! ## Character classes

`isSpaceC` models the characters the default C++ locale treats as
whitespace (`std::isspace`): space, tab, newline, vertical tab, form
feed, carriage return.  `isDigitC` models `std::isdigit`. -/

/-- Whitespace as skipped by `stringstream` extraction in the default locale. -/
def isSpaceC (c : Char) : Bool :=
  c.toNat = 32 || c.toNat = 9 || c.toNat = 10 || c.toNat = 11 ||
  c.toNat = 12 || c.toNat = 13

/-- Decimal digit characters. -/
def isDigitC (c : Char) : Bool :=
  48 ≤ c.toNat && c.toNat ≤ 57

/-- Numeric value of a string of decimal digits, most significant first,
as accumulated by the C++ numeric parsers. -/
def digitsVal (ds : List Char) : Nat :=
  ds.foldl (fun a c => 10 * a + (c.toNat - 48)) 0

/-- The decimal digit character for a value below ten. -/
def digitChar (d : Nat) : Char :=
  match d with
  | 0 => '0' | 1 => '1' | 2 => '2' | 3 => '3' | 4 => '4'
  | 5 => '5' | 6 => '6' | 7 => '7' | 8 => '8' | _ => '9'

/-- Decimal digit list of a natural number, most significant digit first,
as produced by `operator<<` on an integer (for the integer's absolute value). -/
def natDigits (n : Nat) : List Char :=
  if h : n < 10 then [digitChar n]
  else natDigits (n / 10) ++ [digitChar (n % 10)]
termination_by n
decreasing_by
  exact Nat.div_lt_self (by omega) (by omega)

/-- Decimal text of an integer as written by `operator<<` on a C++
integer: a leading minus sign for negative values, then the digits of the
absolute value. -/
def intToDecimal (v : Int) : List Char :=
  if v < 0 then '-' :: natDigits v.natAbs else natDigits v.toNat

/-! ## The wire codec

`AudioRecorder::recordCallback` (audio_streamer.cpp lines 149-174) writes
each captured sample with `ss << *rptr++ << "\n"` in row-major frame
order and sends `ss.str()`.

`AudioPlayer::handle_receive_cb` (audio_streamer.cpp lines 68-90) copies
the received bytes into a stringstream and performs
`frames_per_buffer * num_channels` extractions `ss >> write_buf[i][j]`
into a zero-initialized `int16_t` buffer.  The C++11 semantics of a
failed numeric extraction are modelled exactly: when no token is
available the slot receives 0 and the fail state stops all later
extractions (so the zero-initialized slots keep 0); when the token's
value overflows `int16_t` the slot receives the nearest bound and the
fail state is set likewise. -/

/-- Result of one `ss >> (int16_t)` extraction. -/
inductive ReadResult where
  | ok (v : Int) (rest : List Char)
  | clamped (v : Int) (rest : List Char)
  | fail
deriving DecidableEq

/-- Digit phase of one `int16_t` extraction: consume the longest digit
prefix, apply the sign, and range-check against `int16_t`. -/
def readDigits (neg : Bool) (body : List Char) : ReadResult :=
  let ds := body.takeWhile isDigitC
  let rest := body.dropWhile isDigitC
  if ds = [] then ReadResult.fail
  else
    let v : Int := if neg then -(digitsVal ds : Int) else (digitsVal ds : Int)
    if 32767 < v then ReadResult.clamped 32767 rest
    else if v < -32768 then ReadResult.clamped (-32768) rest
    else ReadResult.ok v rest

/-- One `ss >> (int16_t)` extraction: skip whitespace, read an optional
sign, then digits. -/
def readInt16 (cs : List Char) : ReadResult :=
  match cs.dropWhile isSpaceC with
  | [] => ReadResult.fail
  | c :: rest =>
    if c = '-' then readDigits true rest
    else if c = '+' then readDigits false rest
    else readDigits false (c :: rest)

/-- `n` successive extractions into a zero-initialized buffer: after the
first failed extraction every remaining slot keeps its initial 0 (a
clamped extraction stores the bound, then fails all later slots). -/
def readInts : Nat → List Char → List Int
  | 0, _ => []
  | n + 1, cs =>
    match readInt16 cs with
    | ReadResult.ok v rest => v :: readInts n rest
    | ReadResult.clamped v _ => v :: List.replicate n 0
    | ReadResult.fail => List.replicate (n + 1) 0

/-- The byte sequence written by the recording callback for the given
samples: each sample's decimal text followed by a newline, in order. -/
def encodeSamples : List Int → List Char
  | [] => []
  | v :: vs => intToDecimal v ++ '\n' :: encodeSamples vs

/-- `AudioRecorder::recordCallback`: reads `framesPerBuffer * num_channels`
samples from the input buffer in row-major order, encodes them as text,
sends the message, and returns `paContinue` (the function's only return
statement).  The result pairs the sent message with the returned status. -/
def AudioRecorder.recordCallback (framesPerBuffer : Nat) (input : List Int) :
    List Char × Int :=
  (encodeSamples (input.take (framesPerBuffer * num_channels)), paContinue)

/-- `AudioPlayer::handle_receive_cb`: the received bytes (the first
`recv_bytes` bytes of the receive buffer, here the whole input list) are
parsed into a buffer of `frames_per_buffer * num_channels` samples.  The
`Pa_WriteStream` call on the resulting buffer is external audio-engine
I/O and is not part of the model. -/
def AudioPlayer.handle_receive_cb (recvd : List Char) : List Int :=
  readInts (frames_per_buffer * num_channels) recvd

/-- Number of leading sample slots that receive a value from the input
(successful extractions, plus one slot for a range-clamped token); every
slot beyond this count keeps its zero initialization. -/
def parsedCount : Nat → List Char → Nat
  | 0, _ => 0
  | n + 1, cs =>
    match readInt16 cs with
    | ReadResult.ok _ rest => 1 + parsedCount n rest
    | ReadResult.clamped _ _ => 1
    | ReadResult.fail => 0

/-! ## Endpoint validators -/

/-- `UDPSender::is_valid_port` (sender.hpp line 95):
`port >= 1 && port <= 65535`. -/
def UDPSender.is_valid_port (port : Int) : Bool :=
  decide (port ≥ 1) && decide (port ≤ 65535)

/-- `UDPReceiver::is_valid_port` (receiver.hpp line 147):
`port > 0 && port <= 65535`. -/
def UDPReceiver.is_valid_port (port : Int) : Bool :=
  decide (port > 0) && decide (port ≤ 65535)

/-- `BluetoothSender::is_valid_port` (sender.hpp line 186):
`port >= 1 && port <= 30`. -/
def BluetoothSender.is_valid_port (port : Int) : Bool :=
  decide (port ≥ 1) && decide (port ≤ 30)

/-- `is_valid_port` of main.cpp line 7: `port > 0 && port <= 65535`. -/
def main_is_valid_port (port : Int) : Bool :=
  decide (port > 0) && decide (port ≤ 65535)

/-- Splits a character list at every dot, keeping empty pieces. -/
def splitOnDot : List Char → List (List Char)
  | [] => [[]]
  | c :: rest =>
    if c = '.' then [] :: splitOnDot rest
    else
      match splitOnDot rest with
      | [] => [[c]]
      | p :: ps => (c :: p) :: ps

/-- One octet of a dotted-quad address: one to three decimal digits with
value at most 255. -/
def ipOctetOk (cs : List Char) : Bool :=
  decide (cs ≠ []) && decide (cs.length ≤ 3) && cs.all isDigitC &&
  decide (digitsVal cs ≤ 255)

/-- Modelled from the spec: the IP-syntax check behind `is_valid_ip`
(`boost::asio::ip::address::from_string` succeeding, used by
`UDPSender::is_valid_ip` in sender.hpp lines 102-106 and `is_valid_ip` in
main.cpp lines 9-13; the boost library itself is not part of the
repository).  The spec requires "a syntactically valid network address";
this model accepts exactly the IPv4 dotted-quad form, four decimal
octets in [0, 255] separated by dots. -/
def is_valid_ip (cs : List Char) : Bool :=
  let parts := splitOnDot cs
  decide (parts.length = 4) && parts.all ipOctetOk

/-- Hexadecimal digit characters, upper or lower case, as in the
character class `[0-9A-Fa-f]` of the MAC regex. -/
def isHexDigitC (c : Char) : Bool :=
  (48 ≤ c.toNat && c.toNat ≤ 57) || (65 ≤ c.toNat && c.toNat ≤ 70) ||
  (97 ≤ c.toNat && c.toNat ≤ 102)

/-- Group separators, as in the character class `[:-]` of the MAC regex. -/
def isSepC (c : Char) : Bool :=
  c = ':' || c = '-'

/-- Anchored matcher for the regex
`([0-9A-Fa-f]{2}[:-]){n}([0-9A-Fa-f]{2})` against the whole input. -/
def matchMac : Nat → List Char → Bool
  | 0, [a, b] => isHexDigitC a && isHexDigitC b
  | 0, _ => false
  | n + 1, a :: b :: s :: rest =>
    isHexDigitC a && isHexDigitC b && isSepC s && matchMac n rest
  | _ + 1, _ => false

/-- `BluetoothSender::is_valid_mac` (sender.hpp lines 193-198):
`regex_match` of the whole string against
`^([0-9A-Fa-f]{2}[:-]){5}([0-9A-Fa-f]{2})$`. -/
def BluetoothSender.is_valid_mac (s : String) : Bool :=
  matchMac 5 s.data

/-- Interleaving of groups and separators: `g0 s0 g1 s1 ... g(n-1)`. -/
def interleave : List (List Char) → List Char → List Char
  | [], _ => []
  | g :: _, [] => g
  | g :: gs, s :: ss => g ++ s :: interleave gs ss

/-- A 2-digit hexadecimal group, as the spec words it. -/
def hexGroup (g : List Char) : Prop :=
  g.length = 2 ∧ ∀ c ∈ g, isHexDigitC c = true

/-- The spec's wording of MAC validity: six 2-digit hexadecimal groups
separated by colons or hyphens. -/
def macSpec (s : String) : Prop :=
  ∃ gs : List (List Char), ∃ seps : List Char,
    gs.length = 6 ∧ (∀ g ∈ gs, hexGroup g) ∧ seps.length = 5 ∧
    (∀ c ∈ seps, isSepC c = true) ∧ s.data = interleave gs seps

/-! ## Constructors as acquisition traces (sender.hpp, receiver.hpp)

A constructor is modelled as the list of resources it acquires paired
with the thrown error, if any.  A C++ constructor that throws before
acquiring produces an empty trace.  (The `boost::asio` socket member is
value-constructed before the constructor body runs, but no descriptor is
opened until `socket_.open`, which the body only reaches after
validation.) -/

/-- Resources the constructors can acquire, in source order. -/
inductive AcquiredResource where
  | socketOpened
  | threadStarted
deriving DecidableEq

/-- Validation errors thrown by the constructors. -/
inductive CtorError where
  | invalidPort
  | invalidIp
deriving DecidableEq

/-- `UDPSender::UDPSender` (sender.hpp lines 51-68): validate the port,
then the IP, throwing on either; only then `socket_.open(...)`. -/
def UDPSender.construct (ip : List Char) (port : Int) :
    List AcquiredResource × Option CtorError :=
  if UDPSender.is_valid_port port = false then ([], some CtorError.invalidPort)
  else if is_valid_ip ip = false then ([], some CtorError.invalidIp)
  else ([AcquiredResource.socketOpened], none)

/-- `UDPReceiver::UDPReceiver` (receiver.hpp lines 72-84): validate the
port, throwing if invalid; the socket is opened and the thread spawned
only later, in `start()`. -/
def UDPReceiver.construct (port : Int) :
    List AcquiredResource × Option CtorError :=
  if UDPReceiver.is_valid_port port = false then ([], some CtorError.invalidPort)
  else ([], none)

/-! ## Receiver stop/start state machines (receiver.hpp) -/

/-- Observable resource state of a `UDPReceiver`: whether the
`io_service` is running, whether the member thread is joinable, and
whether the socket is open. -/
structure UDPReceiverState where
  ioServiceRunning : Bool
  threadJoinable : Bool
  socketOpen : Bool
deriving DecidableEq

/-- State after the `UDPReceiver` constructor: nothing started. -/
def UDPReceiver.ctorState : UDPReceiverState :=
  ⟨false, false, false⟩

/-- `UDPReceiver::start` (receiver.hpp lines 97-109): opens and binds the
socket and spawns the io_service thread. -/
def UDPReceiver.start (_s : UDPReceiverState) : UDPReceiverState :=
  ⟨true, true, true⟩

/-- `UDPReceiver::stop` (receiver.hpp lines 114-125): `io_service_.stop()`
(a no-op on a stopped or never-run service), join the thread only if it
is joinable, then `socket_.close()` (a no-op on a socket that is not
open). -/
def UDPReceiver.stop (s : UDPReceiverState) : UDPReceiverState :=
  let s1 := { s with ioServiceRunning := false }
  let s2 := if s1.threadJoinable then { s1 with threadJoinable := false } else s1
  { s2 with socketOpen := false }

/-- Observable resource state of a `BluetoothReceiver`: the polling flag,
thread joinability, and whether the hive event loop is running. -/
structure BluetoothReceiverState where
  polling : Bool
  threadJoinable : Bool
  hiveRunning : Bool
deriving DecidableEq

/-- State after the `BluetoothReceiver` constructor: nothing started. -/
def BluetoothReceiver.ctorState : BluetoothReceiverState :=
  ⟨false, false, false⟩

/-- `BluetoothReceiver::start` (receiver.hpp lines 220-232): listens,
accepts, sets the polling flag and spawns the polling thread. -/
def BluetoothReceiver.start (_s : BluetoothReceiverState) : BluetoothReceiverState :=
  ⟨true, true, true⟩

/-- `BluetoothReceiver::stop` (receiver.hpp lines 237-246): clear the
polling flag, join the thread only if joinable, then `GetHive()->Stop()`
(idempotent on a stopped hive). -/
def BluetoothReceiver.stop (s : BluetoothReceiverState) : BluetoothReceiverState :=
  let s1 := { s with polling := false }
  let s2 := if s1.threadJoinable then { s1 with threadJoinable := false } else s1
  { s2 with hiveRunning := false }

/-! ## The steady-state receive completion handler (receiver.hpp) -/

/-- Observable actions a receive completion handler could take. -/
inductive RxEvent where
  | callbackInvoked (recvBytes : Nat)
  | rearmed
  | logged
  | fatalError
deriving DecidableEq

/-- `UDPReceiver::handle_receive_wrapper` (receiver.hpp lines 154-158):
the body never inspects the `error` argument; it invokes the registered
receive callback on the buffer with the reported byte count and then
re-arms the asynchronous receive via `wait()`. -/
def UDPReceiver.handle_receive_wrapper (_error : Int) (recvBytes : Nat) :
    List RxEvent :=
  [RxEvent.callbackInvoked recvBytes, RxEvent.rearmed]

/-! ## The command-line driver (main.cpp)

`main` is modelled as a function of the parsed option map (whether
`--help` was given, the `--player` port value, the `--recorder` string),
the environment's answer to the `ping` reachability probe, and the lines
subsequently read from standard input.  PortAudio and the
player/recorder constructors are assumed to succeed (their failures
throw, which the claims do not cover).  Standard-output messages are
recorded as tags; the per-iteration quit prompt is not tracked. -/

/-- Messages main writes to standard output before exiting. -/
inductive MainMsg where
  | helpText
  | usageBoth
  | usageNeither
  | invalidPortMsg
  | invalidArgMsg
  | invalidIpMsg
  | unreachableMsg
deriving DecidableEq

/-- Final outcome of a run of `main`: a process exit code, an uncaught
exception (std::terminate), or an endless loop reading standard input. -/
inductive MainOutcome where
  | exit (code : Int)
  | crash
  | loops
deriving DecidableEq

/-- Result of `std::stoi`. -/
inductive StoiResult where
  | ok (v : Int)
  | invalidArgument
  | outOfRange
deriving DecidableEq

/-- `std::stoi` on the port substring (main.cpp line 85): skip leading
whitespace, an optional sign, then decimal digits; no digits raises
`std::invalid_argument`, a value outside `int` raises
`std::out_of_range`. -/
def stoi (cs : List Char) : StoiResult :=
  match cs.dropWhile isSpaceC with
  | [] => StoiResult.invalidArgument
  | c :: rest =>
    let sign : Int := if c = '-' then -1 else 1
    let body := if c = '-' ∨ c = '+' then rest else c :: rest
    let ds := body.takeWhile isDigitC
    if ds = [] then StoiResult.invalidArgument
    else
      let v : Int := sign * (digitsVal ds : Int)
      if v < -2147483648 ∨ 2147483647 < v then StoiResult.outOfRange
      else StoiResult.ok v

/-- `ip_port.find(':')` followed by the two `substr` calls (main.cpp
lines 79-92): the part before the first colon and the part after it, or
`none` when the string has no colon. -/
def splitAtColon : List Char → Option (List Char × List Char)
  | [] => none
  | c :: rest =>
    if c = ':' then some ([], rest)
    else
      match splitAtColon rest with
      | none => none
      | some (a, b) => some (c :: a, b)

/-- The `while (true)` input loop of main.cpp lines 113-120: read a line;
`q` or `Q` breaks the loop (main then terminates PortAudio and returns
0); anything else repeats.  Exhausted input loops forever re-reading at
end-of-file. -/
def runQuitLoop : List String → MainOutcome
  | [] => MainOutcome.loops
  | l :: ls =>
    if l = "q" ∨ l = "Q" then MainOutcome.exit 0 else runQuitLoop ls

/-- `main` (main.cpp lines 20-126) after command-line parsing: `--help`
prints usage and returns 1; both roles given prints usage and returns 1;
the player path validates the port; the recorder path requires a colon,
converts the port substring with `std::stoi` (whose exception is not
caught: the process crashes), validates port and IP syntax, and probes
reachability with ping; any validation failure prints a message and
returns 1.  Otherwise the quit loop runs until `q`/`Q`, and main
returns 0. -/
def mainRun (hasHelp : Bool) (player : Option Int) (recorder : Option String)
    (reachable : Bool) (stdin : List String) : List MainMsg × MainOutcome :=
  if hasHelp then ([MainMsg.helpText], MainOutcome.exit 1)
  else
    match player, recorder with
    | some _, some _ => ([MainMsg.usageBoth], MainOutcome.exit 1)
    | some port, none =>
      if main_is_valid_port port = false then
        ([MainMsg.invalidPortMsg], MainOutcome.exit 1)
      else ([], runQuitLoop stdin)
    | none, some ip_port =>
      match splitAtColon ip_port.data with
      | none => ([MainMsg.invalidArgMsg], MainOutcome.exit 1)
      | some (ipChars, portChars) =>
        match stoi portChars with
        | StoiResult.invalidArgument => ([], MainOutcome.crash)
        | StoiResult.outOfRange => ([], MainOutcome.crash)
        | StoiResult.ok port =>
          if main_is_valid_port port = false then
            ([MainMsg.invalidPortMsg], MainOutcome.exit 1)
          else if is_valid_ip ipChars = false then
            ([MainMsg.invalidIpMsg], MainOutcome.exit 1)
          else if reachable = false then
            ([MainMsg.unreachableMsg], MainOutcome.exit 1)
          else ([], runQuitLoop stdin)
    | none, none => ([MainMsg.usageNeither], MainOutcome.exit 1)

/-! ## Concrete test data used by the witness theorems -/

/-- A concrete 16-frame, 2-channel buffer (32 samples across the int16
range) used to instantiate the round-trip theorems. -/
def sampleBuf : List Int :=
  [0, -1, 1, 32767, -32768, 100, -100, 7,
   12345, -12345, 255, -255, 9, -9, 31000, -31000,
   2, -2, 3, -3, 4, -4, 5, -5,
   6, -6, 8, -8, 10, -10, 11, -11]

/-- A concrete short sample list (two values) for the partial-data witness. -/
def shortBuf : List Int :=
  [5, -3]

/-! ## Helper lemmas about the codec -/

theorem takeWhile_append_all {p : Char → Bool} {xs ys : List Char}
    (h : ∀ x ∈ xs, p x = true) :
    (xs ++ ys).takeWhile p = xs ++ ys.takeWhile p := by
  induction xs with
  | nil => simp
  | cons a as ih =>
    have ha : p a = true := h a (by simp)
    simp only [List.cons_append, List.takeWhile_cons, ha, if_true]
    rw [ih (fun x hx => h x (by simp [hx]))]

theorem dropWhile_append_all {p : Char → Bool} {xs ys : List Char}
    (h : ∀ x ∈ xs, p x = true) :
    (xs ++ ys).dropWhile p = ys.dropWhile p := by
  induction xs with
  | nil => simp
  | cons a as ih =>
    have ha : p a = true := h a (by simp)
    simp only [List.cons_append, List.dropWhile_cons, ha, if_true]
    exact ih (fun x hx => h x (by simp [hx]))

theorem digitChar_toNat {d : Nat} (h : d < 10) : (digitChar d).toNat = 48 + d := by
  interval_cases d <;> rfl

theorem isDigitC_digitChar {d : Nat} (h : d < 10) : isDigitC (digitChar d) = true := by
  simp [isDigitC, digitChar_toNat h]
  omega

theorem natDigits_ne_nil (n : Nat) : natDigits n ≠ [] := by
  rw [natDigits]
  split
  · simp
  · simp

theorem natDigits_all_digits (n : Nat) : ∀ c ∈ natDigits n, isDigitC c = true := by
  induction n using Nat.strong_induction_on with
  | _ n ih =>
    rw [natDigits]
    split
    · next h =>
      intro c hc
      simp at hc
      subst hc
      exact isDigitC_digitChar h
    · next h =>
      intro c hc
      simp at hc
      rcases hc with hc | hc
      · exact ih (n / 10) (Nat.div_lt_self (by omega) (by omega)) c hc
      · subst hc
        exact isDigitC_digitChar (Nat.mod_lt _ (by omega))

theorem digitsVal_append_single (xs : List Char) (c : Char) :
    digitsVal (xs ++ [c]) = 10 * digitsVal xs + (c.toNat - 48) := by
  simp [digitsVal, List.foldl_append]

theorem digitsVal_natDigits (n : Nat) : digitsVal (natDigits n) = n := by
  induction n using Nat.strong_induction_on with
  | _ n ih =>
    rw [natDigits]
    split
    · next h =>
      simp [digitsVal, digitChar_toNat h]
    · next h =>
      rw [digitsVal_append_single,
        ih (n / 10) (Nat.div_lt_self (by omega) (by omega)),
        digitChar_toNat (Nat.mod_lt _ (by omega))]
      omega

theorem isDigitC_not_space {c : Char} (h : isDigitC c = true) : isSpaceC c = false := by
  simp [isDigitC] at h
  simp [isSpaceC]
  omega

theorem isDigitC_ne_minus {c : Char} (h : isDigitC c = true) : c ≠ '-' := by
  intro hc
  subst hc
  simp [isDigitC] at h

theorem isDigitC_ne_plus {c : Char} (h : isDigitC c = true) : c ≠ '+' := by
  intro hc
  subst hc
  simp [isDigitC] at h

theorem readInt16_cons {c : Char} (h : isSpaceC c = false) (cs : List Char) :
    readInt16 (c :: cs) =
      if c = '-' then readDigits true cs
      else if c = '+' then readDigits false cs
      else readDigits false (c :: cs) := by
  unfold readInt16
  simp [List.dropWhile_cons, h]

theorem readInt16_space {c : Char} (h : isSpaceC c = true) (cs : List Char) :
    readInt16 (c :: cs) = readInt16 cs := by
  unfold readInt16
  simp [List.dropWhile_cons, h]

theorem readInts_cons_space {c : Char} (h : isSpaceC c = true) (n : Nat)
    (cs : List Char) : readInts n (c :: cs) = readInts n cs := by
  cases n with
  | zero => rfl
  | succ m => simp only [readInts, readInt16_space h]

theorem readInts_nil (n : Nat) : readInts n [] = List.replicate n 0 := by
  cases n with
  | zero => rfl
  | succ m => simp [readInts, show readInt16 [] = ReadResult.fail from rfl]

theorem readDigits_natDigits_pos (m : Nat) (hm : m ≤ 32767) (rest : List Char) :
    readDigits false (natDigits m ++ '\n' :: rest) =
      ReadResult.ok (m : Int) ('\n' :: rest) := by
  have hnl : isDigitC '\n' = false := by decide
  unfold readDigits
  simp only [takeWhile_append_all (natDigits_all_digits m),
    dropWhile_append_all (natDigits_all_digits m), List.takeWhile_cons,
    List.dropWhile_cons, hnl, Bool.false_eq_true, if_false, List.append_nil,
    if_neg (natDigits_ne_nil m), digitsVal_natDigits]
  rw [if_neg (by omega : ¬ (32767 : Int) < (m : Int))]
  rw [if_neg (by omega : ¬ (m : Int) < -32768)]

theorem readDigits_natDigits_neg (m : Nat) (hm : m ≤ 32768) (rest : List Char) :
    readDigits true (natDigits m ++ '\n' :: rest) =
      ReadResult.ok (-(m : Int)) ('\n' :: rest) := by
  have hnl : isDigitC '\n' = false := by decide
  unfold readDigits
  simp only [takeWhile_append_all (natDigits_all_digits m),
    dropWhile_append_all (natDigits_all_digits m), List.takeWhile_cons,
    List.dropWhile_cons, hnl, Bool.false_eq_true, if_false, List.append_nil,
    if_neg (natDigits_ne_nil m), digitsVal_natDigits, if_true]
  rw [if_neg (by omega : ¬ (32767 : Int) < -(m : Int))]
  rw [if_neg (by omega : ¬ -(m : Int) < -32768)]

theorem readInt16_encodeTok (v : Int) (h1 : -32768 ≤ v) (h2 : v ≤ 32767)
    (rest : List Char) :
    readInt16 (intToDecimal v ++ '\n' :: rest) = ReadResult.ok v ('\n' :: rest) := by
  by_cases hv : v < 0
  · have hd : intToDecimal v = '-' :: natDigits v.natAbs := by
      simp [intToDecimal, hv]
    rw [hd, List.cons_append, readInt16_cons (by decide)]
    rw [if_pos rfl, readDigits_natDigits_neg v.natAbs (by omega)]
    congr 1
    omega
  · have hd : intToDecimal v = natDigits v.toNat := by
      simp [intToDecimal, hv]
    cases hnd : natDigits v.toNat with
    | nil => exact absurd hnd (natDigits_ne_nil _)
    | cons d t =>
      have hdig : isDigitC d = true :=
        natDigits_all_digits v.toNat d (by rw [hnd]; simp)
      rw [hd, hnd, List.cons_append, readInt16_cons (isDigitC_not_space hdig)]
      rw [if_neg (isDigitC_ne_minus hdig), if_neg (isDigitC_ne_plus hdig)]
      rw [← List.cons_append, ← hnd,
        readDigits_natDigits_pos v.toNat (by omega)]
      congr 1
      omega

theorem readInts_encode_extra :
    ∀ (vs : List Int) (extra : List Char),
      (∀ v ∈ vs, -32768 ≤ v ∧ v ≤ 32767) →
      readInts vs.length (encodeSamples vs ++ extra) = vs := by
  intro vs
  induction vs with
  | nil => intro extra _; rfl
  | cons v vs ih =>
    intro extra hb
    have hv := hb v (by simp)
    show readInts (vs.length + 1)
      ((intToDecimal v ++ '\n' :: encodeSamples vs) ++ extra) = _
    rw [List.append_assoc, List.cons_append]
    simp only [readInts, readInt16_encodeTok v hv.1 hv.2]
    rw [readInts_cons_space (by decide), ih extra (fun x hx => hb x (by simp [hx]))]

theorem readInts_encode_pad :
    ∀ (vs : List Int) (n : Nat),
      (∀ v ∈ vs, -32768 ≤ v ∧ v ≤ 32767) → vs.length ≤ n →
      readInts n (encodeSamples vs) = vs ++ List.replicate (n - vs.length) 0 := by
  intro vs
  induction vs with
  | nil =>
    intro n _ _
    simpa [encodeSamples] using readInts_nil n
  | cons v vs ih =>
    intro n hb hlen
    cases n with
    | zero => simp at hlen
    | succ m =>
      have hv := hb v (by simp)
      show readInts (m + 1) (intToDecimal v ++ '\n' :: encodeSamples vs) = _
      simp only [readInts, readInt16_encodeTok v hv.1 hv.2]
      rw [readInts_cons_space (by decide),
        ih m (fun x hx => hb x (by simp [hx])) (by simpa using hlen)]
      simp [Nat.succ_sub_succ]

theorem readInts_length : ∀ (n : Nat) (cs : List Char),
    (readInts n cs).length = n := by
  intro n
  induction n with
  | zero => intro cs; rfl
  | succ m ih =>
    intro cs
    cases hr : readInt16 cs with
    | ok v rest => simp [readInts, hr, ih]
    | clamped v rest => simp [readInts, hr]
    | fail => simp [readInts, hr]

theorem readInts_drop_parsed : ∀ (n : Nat) (cs : List Char),
    List.drop (parsedCount n cs) (readInts n cs) =
      List.replicate (n - parsedCount n cs) 0 := by
  intro n
  induction n with
  | zero => intro cs; rfl
  | succ m ih =>
    intro cs
    cases hr : readInt16 cs with
    | ok v rest =>
      simp only [readInts, parsedCount, hr]
      rw [Nat.add_comm 1 (parsedCount m rest), List.drop_succ_cons,
        ih rest]
      congr 1
      omega
    | clamped v rest =>
      simp [readInts, parsedCount, hr]
    | fail =>
      simp [readInts, parsedCount, hr]

/-! ## Claim theorems -/

/-- C1: for every Buffer of `frames_per_buffer × num_channels` (16 × 2)
int16 samples, encoding it as `recordCallback` does (decimal text of
each sample followed by a newline, row-major order) and decoding the
resulting bytes as `handle_receive_cb` does (one integer token per slot,
same order) reconstructs the Buffer exactly. -/
theorem C1_encode_decode_roundtrip (B : List Int)
    (hlen : B.length = frames_per_buffer * num_channels)
    (hrange : ∀ v ∈ B, -32768 ≤ v ∧ v ≤ 32767) :
    AudioPlayer.handle_receive_cb
      (AudioRecorder.recordCallback frames_per_buffer B).1 = B := by
  unfold AudioPlayer.handle_receive_cb AudioRecorder.recordCallback
  rw [show B.take (frames_per_buffer * num_channels) = B from by
    rw [← hlen]; exact List.take_length B]
  rw [← hlen]
  simpa using readInts_encode_extra B [] hrange

/-- Witness for C1 at a concrete 32-sample buffer spanning the int16 range. -/
theorem C1_witness :
    AudioPlayer.handle_receive_cb
      (AudioRecorder.recordCallback frames_per_buffer sampleBuf).1 = sampleBuf :=
  C1_encode_decode_roundtrip sampleBuf (by decide) (by decide)

/-- C2: decoding never rejects a message.  First conjunct (any received
byte sequence): every sample slot at or beyond the count of slots filled
from the input keeps its zero initialization.  Second conjunct (a wire
message carrying fewer than 32 values): decoding yields those values
followed by zeros. -/
theorem C2_partial_zero_padding :
    (∀ cs : List Char,
      List.drop (parsedCount (frames_per_buffer * num_channels) cs)
        (AudioPlayer.handle_receive_cb cs) =
      List.replicate
        (frames_per_buffer * num_channels -
          parsedCount (frames_per_buffer * num_channels) cs) 0) ∧
    (∀ vs : List Int, (∀ v ∈ vs, -32768 ≤ v ∧ v ≤ 32767) →
      vs.length ≤ frames_per_buffer * num_channels →
      AudioPlayer.handle_receive_cb (encodeSamples vs) =
        vs ++ List.replicate (frames_per_buffer * num_channels - vs.length) 0) := by
  constructor
  · intro cs
    exact readInts_drop_parsed _ cs
  · intro vs hb hlen
    exact readInts_encode_pad vs _ hb hlen

/-- Witness for C2: a two-value message decodes to those two samples and
thirty zeros. -/
theorem C2_witness :
    AudioPlayer.handle_receive_cb (encodeSamples shortBuf) =
      shortBuf ++
        List.replicate (frames_per_buffer * num_channels - shortBuf.length) 0 :=
  C2_partial_zero_padding.2 shortBuf (by decide) (by decide)

/-- C3 counterexample: at a concrete invocation the recording callback
returns `paContinue`, which differs from `paComplete`; the source's only
return statement is `return paContinue;` and no stop flag exists, so the
claimed complete-on-stop path never occurs. -/
theorem C3_counterexample :
    (AudioRecorder.recordCallback frames_per_buffer (List.replicate 32 0)).2 =
      paContinue ∧ paContinue ≠ paComplete :=
  ⟨rfl, by decide⟩

/-- C3 (amended): every invocation of the recording callback returns the
continue status; the complete status is never returned. -/
theorem C3_recordCallback_always_continue (framesPerBuffer : Nat)
    (input : List Int) :
    (AudioRecorder.recordCallback framesPerBuffer input).2 = paContinue := rfl

/-- C4 counterexample: for a receive completion reporting a concrete
nonzero error code (125, boost's operation_aborted), the handler's
action trace contains no logging action — the claimed error logging does
not happen. -/
theorem C4_counterexample :
    RxEvent.logged ∉ UDPReceiver.handle_receive_wrapper 125 0 := by
  decide

/-- C4 (amended): on every datagram receive completion, with or without
an error, the handler invokes the receive callback with the reported
byte count and re-arms the receive; it never logs and is never fatal. -/
theorem C4_receive_error_ignored_and_rearmed (error : Int) (recvBytes : Nat) :
    UDPReceiver.handle_receive_wrapper error recvBytes =
      [RxEvent.callbackInvoked recvBytes, RxEvent.rearmed] ∧
    RxEvent.logged ∉ UDPReceiver.handle_receive_wrapper error recvBytes ∧
    RxEvent.fatalError ∉ UDPReceiver.handle_receive_wrapper error recvBytes := by
  refine ⟨rfl, ?_, ?_⟩ <;> simp [UDPReceiver.handle_receive_wrapper]

/-- C10: the decoder always produces exactly
`frames_per_buffer × num_channels = 32` sample slots, and any bytes in a
message beyond the 32nd token are discarded: appending arbitrary extra
bytes to a full encoded Buffer does not change the decoded result (the
decoder is a pure function of one message, so no state carries over
between invocations). -/
theorem C10_decoder_fixed_extraction :
    (∀ cs : List Char,
      (AudioPlayer.handle_receive_cb cs).length =
        frames_per_buffer * num_channels) ∧
    (∀ (B : List Int) (extra : List Char),
      B.length = frames_per_buffer * num_channels →
      (∀ v ∈ B, -32768 ≤ v ∧ v ≤ 32767) →
      AudioPlayer.handle_receive_cb (encodeSamples B ++ extra) = B) := by
  constructor
  · intro cs
    exact readInts_length _ cs
  · intro B extra hlen hb
    unfold AudioPlayer.handle_receive_cb
    rw [← hlen]
    exact readInts_encode_extra B extra hb

/-- Witness for C10: a full buffer followed by a 33rd token decodes to
the buffer alone. -/
theorem C10_witness :
    AudioPlayer.handle_receive_cb
      (encodeSamples sampleBuf ++ ('9' :: '9' :: '\n' :: [])) = sampleBuf :=
  C10_decoder_fixed_extraction.2 sampleBuf ('9' :: '9' :: '\n' :: [])
    (by decide) (by decide)

/-- C5: the UDP port validators accept exactly 1..65535 and the
Bluetooth channel validator exactly 1..30. -/
theorem C5_port_validators (n : Int) :
    (UDPSender.is_valid_port n = true ↔ 1 ≤ n ∧ n ≤ 65535) ∧
    (UDPReceiver.is_valid_port n = true ↔ 1 ≤ n ∧ n ≤ 65535) ∧
    (BluetoothSender.is_valid_port n = true ↔ 1 ≤ n ∧ n ≤ 30) := by
  refine ⟨?_, ?_, ?_⟩ <;>
    simp only [UDPSender.is_valid_port, UDPReceiver.is_valid_port,
      BluetoothSender.is_valid_port, Bool.and_eq_true, decide_eq_true_eq] <;>
    omega

/-- Helper: `UDPReceiver::stop` always reaches the fully-stopped state,
from any state. -/
theorem udpReceiver_stop_result (s : UDPReceiverState) :
    UDPReceiver.stop s = ⟨false, false, false⟩ := by
  cases s with
  | mk a b c => cases b <;> rfl

/-- Helper: `BluetoothReceiver::stop` always reaches the fully-stopped
state, from any state. -/
theorem bluetoothReceiver_stop_result (t : BluetoothReceiverState) :
    BluetoothReceiver.stop t = ⟨false, false, false⟩ := by
  cases t with
  | mk a b c => cases b <;> rfl

/-- C8: for both receiver variants, `stop()` is idempotent and safe to
call on a receiver that was never started: every call (the thread join
is guarded by joinability, and closing an unopened socket or stopping an
idle io_service/hive is a no-op) completes and leaves the same
fully-stopped state. -/
theorem C8_stop_idempotent_and_safe :
    (∀ s : UDPReceiverState,
      UDPReceiver.stop (UDPReceiver.stop s) = UDPReceiver.stop s) ∧
    (UDPReceiver.stop UDPReceiver.ctorState =
      UDPReceiver.stop (UDPReceiver.start UDPReceiver.ctorState)) ∧
    (∀ t : BluetoothReceiverState,
      BluetoothReceiver.stop (BluetoothReceiver.stop t) = BluetoothReceiver.stop t) ∧
    (BluetoothReceiver.stop BluetoothReceiver.ctorState =
      BluetoothReceiver.stop (BluetoothReceiver.start BluetoothReceiver.ctorState)) := by
  refine ⟨?_, ?_, ?_, ?_⟩
  · intro s
    simp only [udpReceiver_stop_result]
  · simp only [udpReceiver_stop_result]
  · intro t
    simp only [bluetoothReceiver_stop_result]
  · simp only [bluetoothReceiver_stop_result]

/-- C7: constructing a `UDPSender` with an invalid port or invalid IP,
or a `UDPReceiver` with an invalid port, throws after validation only:
the acquisition trace at the throw is empty (no socket opened, no thread
created). -/
theorem C7_construction_fails_before_acquisition :
    (∀ (ip : List Char) (port : Int),
      UDPSender.is_valid_port port = false ∨ is_valid_ip ip = false →
      (UDPSender.construct ip port).1 = [] ∧
      (UDPSender.construct ip port).2.isSome = true) ∧
    (∀ port : Int, UDPReceiver.is_valid_port port = false →
      UDPReceiver.construct port = ([], some CtorError.invalidPort)) := by
  constructor
  · intro ip port h
    unfold UDPSender.construct
    rcases h with h | h
    · simp [h]
    · by_cases hp : UDPSender.is_valid_port port = false
      · simp [hp]
      · rw [Bool.not_eq_false] at hp
        simp [hp, h]
  · intro port h
    simp [UDPReceiver.construct, h]

/-- Witness for C7 at port 70000 and IP 999.999.999.999. -/
theorem C7_witness :
    ((UDPSender.construct ("999.999.999.999").data 9000).1 = [] ∧
      (UDPSender.construct ("999.999.999.999").data 9000).2.isSome = true) ∧
    UDPReceiver.construct 70000 = ([], some CtorError.invalidPort) :=
  ⟨C7_construction_fails_before_acquisition.1 (("999.999.999.999").data) 9000
      (Or.inr (by decide)),
    C7_construction_fails_before_acquisition.2 70000 (by decide)⟩

/-- Helper: the anchored matcher for `n + 1` hex groups with `n`
separators accepts exactly the interleavings of `n + 1` 2-digit hex
groups with `n` separator characters. -/
theorem matchMac_iff : ∀ (n : Nat) (cs : List Char),
    matchMac n cs = true ↔
      ∃ (gs : List (List Char)) (seps : List Char),
        gs.length = n + 1 ∧ (∀ g ∈ gs, hexGroup g) ∧ seps.length = n ∧
        (∀ c ∈ seps, isSepC c = true) ∧ cs = interleave gs seps := by
  intro n
  induction n with
  | zero =>
    intro cs
    constructor
    · intro h
      rcases cs with _ | ⟨a, _ | ⟨b, _ | ⟨x, t⟩⟩⟩
      · simp [matchMac] at h
      · simp [matchMac] at h
      · simp only [matchMac, Bool.and_eq_true] at h
        refine ⟨[[a, b]], [], rfl, ?_, rfl, by simp, rfl⟩
        intro g hg
        simp only [List.mem_singleton] at hg
        subst hg
        refine ⟨rfl, ?_⟩
        intro c hc
        simp only [List.mem_cons, List.not_mem_nil, or_false] at hc
        rcases hc with rfl | rfl
        · exact h.1
        · exact h.2
      · simp [matchMac] at h
    · rintro ⟨gs, seps, hgl, hgs, hsl, hss, hcs⟩
      rcases gs with _ | ⟨g, gs'⟩
      · simp at hgl
      rcases gs' with _ | ⟨g2, gs''⟩
      · rcases seps with _ | ⟨s, seps'⟩
        · obtain ⟨hg2, hghex⟩ := hgs g (by simp)
          rcases g with _ | ⟨a, _ | ⟨b, _ | ⟨x, t⟩⟩⟩ <;> simp at hg2
          subst hcs
          simp only [interleave, matchMac, Bool.and_eq_true]
          exact ⟨hghex a (by simp), hghex b (by simp)⟩
        · simp at hsl
      · simp at hgl
  | succ m ih =>
    intro cs
    constructor
    · intro h
      rcases cs with _ | ⟨a, _ | ⟨b, _ | ⟨s, rest⟩⟩⟩
      · simp [matchMac] at h
      · simp [matchMac] at h
      · simp [matchMac] at h
      · simp only [matchMac, Bool.and_eq_true] at h
        obtain ⟨⟨⟨ha, hb⟩, hs⟩, hrest⟩ := h
        obtain ⟨gs, seps, hgl, hgs, hsl, hss, hcs⟩ := (ih rest).mp hrest
        refine ⟨[a, b] :: gs, s :: seps, by simp [hgl], ?_, by simp [hsl], ?_, ?_⟩
        · intro g hg
          simp only [List.mem_cons] at hg
          rcases hg with rfl | hg
          · refine ⟨rfl, ?_⟩
            intro c hc
            simp only [List.mem_cons, List.not_mem_nil, or_false] at hc
            rcases hc with rfl | rfl
            · exact ha
            · exact hb
          · exact hgs g hg
        · intro c hc
          simp only [List.mem_cons] at hc
          rcases hc with rfl | hc
          · exact hs
          · exact hss c hc
        · subst hcs
          rfl
    · rintro ⟨gs, seps, hgl, hgs, hsl, hss, hcs⟩
      rcases gs with _ | ⟨g, gs'⟩
      · simp at hgl
      rcases seps with _ | ⟨s, seps'⟩
      · simp at hsl
      obtain ⟨hg2, hghex⟩ := hgs g (by simp)
      rcases g with _ | ⟨a, _ | ⟨b, _ | ⟨x, t⟩⟩⟩ <;> simp at hg2
      subst hcs
      show matchMac (m + 1) (a :: b :: s :: interleave gs' seps') = true
      simp only [matchMac, Bool.and_eq_true]
      refine ⟨⟨⟨hghex a (by simp), hghex b (by simp)⟩, hss s (by simp)⟩, ?_⟩
      refine (ih (interleave gs' seps')).mpr
        ⟨gs', seps', by simpa using hgl, ?_, by simpa using hsl, ?_, rfl⟩
      · intro g hg
        exact hgs g (by simp [hg])
      · intro c hc
        exact hss c (by simp [hc])

/-- C6: the MAC validator accepts a string exactly when it is six
2-digit hexadecimal groups separated by colons or hyphens
(case-insensitive via the hex character class); the three concrete
examples behave as the spec states. -/
theorem C6_mac_validator :
    (∀ s : String, BluetoothSender.is_valid_mac s = true ↔ macSpec s) ∧
    BluetoothSender.is_valid_mac ("00:1A:7D:DA:71:13") = true ∧
    BluetoothSender.is_valid_mac ("00:1A:7D") = false ∧
    BluetoothSender.is_valid_mac ("001A7DDA7113") = false := by
  refine ⟨?_, by decide, by decide, by decide⟩
  intro s
  unfold BluetoothSender.is_valid_mac macSpec
  simpa using matchMac_iff 5 s.data

/-- Helper: if some stdin line is `q` or `Q`, the input loop terminates
with exit code 0. -/
theorem runQuitLoop_exit : ∀ stdin : List String,
    (∃ l ∈ stdin, l = "q" ∨ l = "Q") → runQuitLoop stdin = MainOutcome.exit 0 := by
  intro stdin
  induction stdin with
  | nil =>
    rintro ⟨l, hl, _⟩
    simp at hl
  | cons a as ih =>
    rintro ⟨l, hl, hq⟩
    simp only [List.mem_cons] at hl
    rcases hl with rfl | hl
    · simp [runQuitLoop, hq]
    · unfold runQuitLoop
      by_cases ha : a = "q" ∨ a = "Q"
      · simp [ha]
      · simp only [ha, if_false]
        exact ih ⟨l, hl, hq⟩

/-- C9 counterexample: the recorder argument 127.0.0.1:abc is a
malformed ip:port argument, yet the process does not exit with code 1:
`std::stoi` on the non-numeric port substring raises an uncaught
`std::invalid_argument`, crashing the process. -/
theorem C9_counterexample :
    (mainRun false none (some ("127.0.0.1:abc")) true []).2 = MainOutcome.crash ∧
    MainOutcome.crash ≠ MainOutcome.exit 1 := by
  constructor
  · decide
  · decide

/-- C9 (amended): main exits with code 1, with a usage/validation
message on standard output, for --help, both role flags, neither role
flag, an out-of-range player port, a recorder argument without a colon,
a recorder port that parses but is out of range, an invalid IP, and an
unreachable IP; it exits 0 after a `q`/`Q` stdin line — except that a
recorder port substring that `std::stoi` cannot convert crashes the
process instead of exiting 1. -/
theorem C9_exit_codes :
    (∀ (p : Option Int) (r : Option String) (re : Bool) (si : List String),
      mainRun true p r re si = ([MainMsg.helpText], MainOutcome.exit 1)) ∧
    (∀ (x : Int) (y : String) (re : Bool) (si : List String),
      mainRun false (some x) (some y) re si =
        ([MainMsg.usageBoth], MainOutcome.exit 1)) ∧
    (∀ (re : Bool) (si : List String),
      mainRun false none none re si =
        ([MainMsg.usageNeither], MainOutcome.exit 1)) ∧
    (∀ (p : Int) (re : Bool) (si : List String),
      main_is_valid_port p = false →
      mainRun false (some p) none re si =
        ([MainMsg.invalidPortMsg], MainOutcome.exit 1)) ∧
    (∀ (p : Int) (re : Bool) (si : List String),
      main_is_valid_port p = true → (∃ l ∈ si, l = "q" ∨ l = "Q") →
      (mainRun false (some p) none re si).2 = MainOutcome.exit 0) ∧
    (∀ (r : String) (re : Bool) (si : List String),
      splitAtColon r.data = none →
      mainRun false none (some r) re si =
        ([MainMsg.invalidArgMsg], MainOutcome.exit 1)) ∧
    (∀ (r : String) (ip port : List Char) (v : Int) (re : Bool)
        (si : List String),
      splitAtColon r.data = some (ip, port) → stoi port = StoiResult.ok v →
      main_is_valid_port v = false →
      mainRun false none (some r) re si =
        ([MainMsg.invalidPortMsg], MainOutcome.exit 1)) ∧
    (∀ (r : String) (ip port : List Char) (v : Int) (re : Bool)
        (si : List String),
      splitAtColon r.data = some (ip, port) → stoi port = StoiResult.ok v →
      main_is_valid_port v = true → is_valid_ip ip = false →
      mainRun false none (some r) re si =
        ([MainMsg.invalidIpMsg], MainOutcome.exit 1)) ∧
    (∀ (r : String) (ip port : List Char) (v : Int) (si : List String),
      splitAtColon r.data = some (ip, port) → stoi port = StoiResult.ok v →
      main_is_valid_port v = true → is_valid_ip ip = true →
      mainRun false none (some r) false si =
        ([MainMsg.unreachableMsg], MainOutcome.exit 1)) ∧
    (∀ (r : String) (ip port : List Char) (v : Int) (si : List String),
      splitAtColon r.data = some (ip, port) → stoi port = StoiResult.ok v →
      main_is_valid_port v = true → is_valid_ip ip = true →
      (∃ l ∈ si, l = "q" ∨ l = "Q") →
      (mainRun false none (some r) true si).2 = MainOutcome.exit 0) := by
  refine ⟨?_, ?_, ?_, ?_, ?_, ?_, ?_, ?_, ?_, ?_⟩
  · intro p r re si
    rcases p with _ | p <;> rcases r with _ | r <;> rfl
  · intro x y re si
    rfl
  · intro re si
    rfl
  · intro p re si h
    simp [mainRun, h]
  · intro p re si h hq
    simp [mainRun, h, runQuitLoop_exit si hq]
  · intro r re si h
    simp [mainRun, h]
  · intro r ip port v re si h1 h2 h3
    simp [mainRun, h1, h2, h3]
  · intro r ip port v re si h1 h2 h3 h4
    simp [mainRun, h1, h2, h3, h4]
  · intro r ip port v si h1 h2 h3 h4
    simp [mainRun, h1, h2, h3, h4]
  · intro r ip port v si h1 h2 h3 h4 hq
    simp [mainRun, h1, h2, h3, h4, runQuitLoop_exit si hq]

/-- Witness for C9 at concrete invocations: player port 70000 exits 1
with the invalid-port message; player port 5000 with stdin `x`, `q`
exits 0; recorder argument `abc` (no colon) exits 1 with the
invalid-argument message. -/
theorem C9_witness :
    mainRun false (some 70000) none true [] =
      ([MainMsg.invalidPortMsg], MainOutcome.exit 1) ∧
    (mainRun false (some 5000) none true [("x"), ("q")]).2 = MainOutcome.exit 0 ∧
    mainRun false none (some ("abc")) true [] =
      ([MainMsg.invalidArgMsg], MainOutcome.exit 1) :=
  ⟨C9_exit_codes.2.2.2.1 70000 true [] (by decide),
    C9_exit_codes.2.2.2.2.1 5000 true [("x"), ("q")] (by decide)
      ⟨("q"), by simp, Or.inl rfl⟩,
    C9_exit_codes.2.2.2.2.2.1 ("abc") true [] (by decide)⟩
